import Mathlib

/-!
Verification of the Asana update-summarizer CLI against its specification.

The repository has two variants of the same workflow:
* `src/index.ts`  — linear prompt loop (`main`);
* `src/index.tsx` — Ink state machine (`AppState`, handler functions).

We shallowly embed the data model (`Task`, memberships, review decisions),
the pure task filter, the Markdown summary renderer, the task-URL builders
of both variants, the review loop of the linear variant (with a fallible
comment post), and the handler-driven state machine of the Ink variant.
JavaScript string truthiness (`x || d`, `x ? a : b`) is modelled explicitly:
`undefined` and `""` are falsy.  Timestamps are modelled as already-parsed
instants (integers); network/terminal collaborators are modelled by the
data they deliver (user inputs, post outcomes).
-/

namespace AsanaSummarizer

/-- Type `ProjectCompact` of the Asana schema: the two fields the program reads. -/
structure ProjectCompact where
  gid : Option String
  name : Option String
  deriving DecidableEq, Repr

/-- Type `SectionCompact` of the Asana schema: the two fields the program reads. -/
structure SectionCompact where
  gid : Option String
  name : Option String
  deriving DecidableEq, Repr

/-- One entry of `Task.memberships`: `{ project?, section? }`. -/
structure Membership where
  project : Option ProjectCompact
  «section» : Option SectionCompact
  deriving DecidableEq, Repr

/-- The `Task` type of both variants, restricted to the fields the embedded
code reads (`gid`, `name`, `modified_at`, `memberships`).  `gid` is a plain
string: the source asserts it non-null (`task.gid!`) and the spec makes its
absence a fetch-layer error.  `modified_at` is the parsed instant of the
ISO timestamp (`new Date(...)` value), `none` when the field is absent. -/
structure Task where
  gid : String
  name : Option String
  modified_at : Option Int
  memberships : Option (List Membership)
  deriving DecidableEq, Repr

/-- Type `WorkedOnTask` (tsx) / the record pushed onto `workedOnTasks` (ts). -/
structure WorkedOnTask where
  task : Task
  status : String
  comment : String
  deriving DecidableEq, Repr

/-- One invocation of `client.POST "/tasks/{task_gid}/stories"`: the task
gid in the path and the comment text in the body. -/
structure PostCall where
  task_gid : String
  text : String
  deriving DecidableEq, Repr

/-- JavaScript `x || d` for a string-or-undefined `x`: both `undefined` and
the empty string are falsy. -/
def jsOr : Option String → String → String
  | some s, d => if s = "" then d else s
  | none, d => d

/-- JavaScript truthiness of a string-or-undefined value. -/
def truthy : Option String → Bool
  | some s => !(s == "")
  | none => false

/-- Template-literal coercion of a string-or-undefined value. -/
def optToStr : Option String → String
  | some s => s
  | none => "undefined"

/-- Expression `task.memberships?.[0]`: optional chaining through the memberships
array, `none` when the array is absent or empty. -/
def firstMembership (t : Task) : Option Membership :=
  t.memberships.bind List.head?

/-- Expression `task.memberships?.[0]?.project?.name`. -/
def membershipProjectName (t : Task) : Option String :=
  (firstMembership t).bind fun m => m.project.bind fun p => p.name

/-- Expression `task.memberships?.[0]?.section?.name`. -/
def membershipSectionName (t : Task) : Option String :=
  (firstMembership t).bind fun m => m.«section».bind fun s => s.name

/-- Expression `task.memberships?.[0]?.project?.gid`. -/
def membershipProjectGid (t : Task) : Option String :=
  (firstMembership t).bind fun m => m.project.bind fun p => p.gid

/-- The task filter of both variants (`index.ts:104-110`,
`index.tsx:177-183`): keep a task iff `modified_at` is present and the
parsed instant is `≥` the cutoff (`modifiedDate >= sevenDaysAgo`). -/
def recentTasks (tasks : List Task) (cutoff : Int) : List Task :=
  tasks.filter fun task =>
    match task.modified_at with
    | none => false
    | some modifiedDate => cutoff ≤ modifiedDate

/-- Prompt-stage project label (`index.ts:118`, `index.tsx:338,353`):
`task.memberships?.[0]?.project?.name || "No Project"`. -/
def promptProject (t : Task) : String :=
  jsOr (membershipProjectName t) "No Project"

/-- Prompt-stage section label: `... || "No Section"`. -/
def promptSection (t : Task) : String :=
  jsOr (membershipSectionName t) "No Section"

/-- Render-stage project cell (`index.ts:163`, `index.tsx:74`): `... || ""`. -/
def projectCell (t : Task) : String :=
  jsOr (membershipProjectName t) ""

/-- Render-stage section cell: `... || ""`. -/
def sectionCell (t : Task) : String :=
  jsOr (membershipSectionName t) ""

/-- Render-stage name cell (`index.ts:165`, `index.tsx:76`): `task.name || ""`. -/
def nameCell (t : Task) : String :=
  jsOr t.name ""

/-- The URL of the linear variant (`index.ts:166-169`), parametrised by the
selected workspace gid:
`projectGid ? app.asana.com/${ws}/${projectGid}/${task.gid} : app.asana.com/0/0/${task.gid}`. -/
def taskUrlTs (workspace : String) (t : Task) : String :=
  let projectGid := membershipProjectGid t
  if truthy projectGid then
    "https://app.asana.com/" ++ workspace ++ "/" ++ optToStr projectGid ++ "/" ++ t.gid
  else
    "https://app.asana.com/0/0/" ++ t.gid

/-- Function `getTaskUrl` of the Ink variant (`index.tsx:92-97`): the workspace
placeholder is the literal `0`. -/
def getTaskUrl (t : Task) : String :=
  let projectGid := membershipProjectGid t
  if truthy projectGid then
    "https://app.asana.com/0/" ++ optToStr projectGid ++ "/" ++ t.gid
  else
    "https://app.asana.com/0/0/" ++ t.gid

/-- The fixed header row of the summary table. -/
def headerRow : String := "| Project | Section | Name | URL | Status | Comment |\n"

/-- The dash separator row of the summary table. -/
def separatorRow : String := "|---|---|---|---|---|---|\n"

/-- One data row of the summary table (`index.tsx:81`, `index.ts:173` with
the tsx URL): cell values inserted verbatim. -/
def renderRow (w : WorkedOnTask) : String :=
  "| " ++ projectCell w.task ++ " | " ++ sectionCell w.task ++ " | " ++
    nameCell w.task ++ " | " ++ getTaskUrl w.task ++ " | " ++ w.status ++
    " | " ++ w.comment ++ " |\n"

/-- Function `generateSummaryTable` (`index.tsx:68-85`): header, separator, then one
row appended per decision, in order. -/
def generateSummaryTable (workedOnTasks : List WorkedOnTask) : String :=
  workedOnTasks.foldl (fun table w => table ++ renderRow w)
    (headerRow ++ separatorRow)

/-- Number of lines of a newline-terminated string: its newline count. -/
def countLines (s : String) : Nat :=
  s.data.count '\n'

/-- The summary table of the linear variant (`index.ts:158-174`): identical
to `generateSummaryTable` except that the row URL is `taskUrlTs` with the
selected workspace gid. -/
def renderRowTs (workspace : String) (w : WorkedOnTask) : String :=
  "| " ++ projectCell w.task ++ " | " ++ sectionCell w.task ++ " | " ++
    nameCell w.task ++ " | " ++ taskUrlTs workspace w.task ++ " | " ++
    w.status ++ " | " ++ w.comment ++ " |\n"

/-- The per-task answers of a user of the linear variant: the include
confirmation, and (read only when included) the status string, the comment
string and the post confirmation. -/
structure TaskInput where
  included : Bool
  status : String
  comment : String
  post : Bool
  deriving DecidableEq, Repr

/-- Result of one awaited `client.POST` comment-post call. -/
inductive PostOutcome where
  | ok
  | fail
  deriving DecidableEq, Repr

/-- The review loop of the linear variant (`index.ts:116-154`), run over
the filtered tasks paired with the user's answers.  When a task is included
and the post is confirmed, the `await client.POST` call runs *before* the
decision is pushed; a failed call throws to the top-level `catch`
(`index.ts:186`), aborting the loop and discarding every decision
accumulated so far — modelled by `Except.error`.  On success the decision
and the recorded call are accumulated in traversal order. -/
def reviewLoopE (post : String → String → PostOutcome) :
    List (Task × TaskInput) → Except Unit (List WorkedOnTask × List PostCall)
  | [] => .ok ([], [])
  | (task, inp) :: rest =>
    if inp.included then
      if inp.post then
        match post task.gid inp.comment with
        | .fail => .error ()
        | .ok =>
          match reviewLoopE post rest with
          | .error e => .error e
          | .ok (ds, calls) =>
            .ok (⟨task, inp.status, inp.comment⟩ :: ds,
                 ⟨task.gid, inp.comment⟩ :: calls)
      else
        match reviewLoopE post rest with
        | .error e => .error e
        | .ok (ds, calls) => .ok (⟨task, inp.status, inp.comment⟩ :: ds, calls)
    else
      reviewLoopE post rest

/-- The review-phase states of the Ink variant's `AppState`
(`index.tsx:28-66`).  The earlier network phases (`pat`, `workspaces`,
`tasks`) and the `client` field carried by each state are external
collaborators and are not modelled; `selectTasks` is the entry into the
review phase. -/
inductive AppState where
  | selectTasks (tasks : List Task)
  | status (selectedTasks : List Task) (workedOnTasks : List WorkedOnTask)
      (currentTaskIndex : Nat)
  | comment (selectedTasks : List Task) (workedOnTasks : List WorkedOnTask)
      (currentTaskIndex : Nat) (status : String)
  | postComment (selectedTasks : List Task) (workedOnTasks : List WorkedOnTask)
      (currentTaskIndex : Nat) (status : String) (comment : String)
  | summary (workedOnTasks : List WorkedOnTask)
  deriving DecidableEq, Repr

/-- Handler `handleTasksSelect` (`index.tsx:210-223`): from `selectTasks`, keep the
tasks whose gid is among the submitted values and start reviewing at index
0 with an empty accumulator; in any other state do nothing. -/
def handleTasksSelect (values : List String) : AppState → AppState
  | .selectTasks tasks =>
    .status (tasks.filter fun task => values.contains task.gid) [] 0
  | s => s

/-- Handler `handleStatusSubmit` (`index.tsx:225-236`). -/
def handleStatusSubmit (value : String) : AppState → AppState
  | .status ts ws i => .comment ts ws i value
  | s => s

/-- Handler `handleCommentSubmit` (`index.tsx:238-250`). -/
def handleCommentSubmit (value : String) : AppState → AppState
  | .comment ts ws i st => .postComment ts ws i st value
  | s => s

/-- Handler `handlePostComment` (`index.tsx:252-292`).  Returns the next state and
the list of comment-post calls issued (the `POST` is not awaited, so its
outcome cannot influence the state).  When the current task is absent the
handler returns early having done nothing. -/
def handlePostComment (value : String) :
    AppState → AppState × List PostCall
  | .postComment ts ws i st cm =>
    match ts[i]? with
    | none => (.postComment ts ws i st cm, [])
    | some task =>
      let calls := if value = "yes" then [⟨task.gid, cm⟩] else []
      let newWorkedOnTasks := ws ++ [⟨task, st, cm⟩]
      if i = ts.length - 1 then
        (.summary newWorkedOnTasks, calls)
      else
        (.status ts newWorkedOnTasks (i + 1), calls)
  | s => (s, [])

/-- States reachable in the Ink variant's review phase: the state produced
by submitting the multi-select, closed under the three submit handlers. -/
inductive Reachable : AppState → Prop where
  | init (tasks : List Task) (values : List String) :
      Reachable (handleTasksSelect values (.selectTasks tasks))
  | statusStep (v : String) (s : AppState) :
      Reachable s → Reachable (handleStatusSubmit v s)
  | commentStep (v : String) (s : AppState) :
      Reachable s → Reachable (handleCommentSubmit v s)
  | postStep (v : String) (s : AppState) :
      Reachable s → Reachable (handlePostComment v s).1

/-- Invariant of the cursor states: exactly one decision has been
accumulated per task already processed. -/
def cursorInv : AppState → Prop
  | .status _ ws i => ws.length = i
  | .comment _ ws i _ => ws.length = i
  | .postComment _ ws i _ _ => ws.length = i
  | _ => True

/-- The `workedOnTasks` accumulator carried by a state. -/
def workedOf : AppState → List WorkedOnTask
  | .selectTasks _ => []
  | .status _ ws _ => ws
  | .comment _ ws _ _ => ws
  | .postComment _ ws _ _ _ => ws
  | .summary ws => ws

/-- C1: the task filter includes a task iff its modification timestamp is
present and not earlier than the cutoff; tasks lacking a modification
timestamp are excluded (the right-hand side forces `modified_at` to be
`some`). -/
theorem recent_tasks_iff (tasks : List Task) (cutoff : Int) (t : Task) :
    t ∈ recentTasks tasks cutoff ↔
      t ∈ tasks ∧ ∃ m, t.modified_at = some m ∧ cutoff ≤ m := by
  unfold recentTasks
  rw [List.mem_filter]
  cases h : t.modified_at with
  | none => simp [h]
  | some m => simp [h]

/-- C7: the task filter is pure and deterministic (it is a function of its
two arguments), its output is a subsequence of its input retaining the
original relative order, and filtering twice with the same cutoff equals
filtering once. -/
theorem filter_order_preserving_idempotent (tasks : List Task) (cutoff : Int) :
    (recentTasks tasks cutoff).Sublist tasks ∧
      recentTasks (recentTasks tasks cutoff) cutoff = recentTasks tasks cutoff := by
  constructor
  · exact List.filter_sublist tasks
  · simp [recentTasks, List.filter_filter]

/-- C6: for a task whose first membership entry is absent, the prompt stage
presents the fallback labels "No Project" and "No Section" while the
summary renderer puts the empty string in the Project and Section cells. -/
theorem membership_fallback_labels (t : Task) (h : firstMembership t = none) :
    promptProject t = "No Project" ∧ promptSection t = "No Section" ∧
      projectCell t = "" ∧ sectionCell t = "" := by
  simp [promptProject, promptSection, projectCell, sectionCell,
    membershipProjectName, membershipSectionName, h, jsOr]

/-- Witness for C6 at a task with `memberships` absent. -/
theorem membership_fallback_labels_witness :
    promptProject ⟨"1", some "T", none, none⟩ = "No Project" ∧
      promptSection ⟨"1", some "T", none, none⟩ = "No Section" ∧
      projectCell ⟨"1", some "T", none, none⟩ = "" ∧
      sectionCell ⟨"1", some "T", none, none⟩ = "" :=
  membership_fallback_labels ⟨"1", some "T", none, none⟩ rfl

/-- C10: an empty-string project or section name in the first membership is
treated like an absent membership at the public interface — the prompt
stage shows the fallback labels and the renderer emits an empty cell — and
an empty task display name renders as an empty Name cell, because the
JavaScript fallback applies to any falsy name. -/
theorem falsy_name_fallback (t : Task) :
    (membershipProjectName t = some "" →
        promptProject t = "No Project" ∧ projectCell t = "") ∧
    (membershipSectionName t = some "" →
        promptSection t = "No Section" ∧ sectionCell t = "") ∧
    (t.name = some "" → nameCell t = "") := by
  refine ⟨fun h => ?_, fun h => ?_, fun h => ?_⟩ <;>
    simp [promptProject, projectCell, promptSection, sectionCell, nameCell,
      jsOr, h]

/-- Witness for C10 at a task whose first membership carries empty-string
project and section names and whose display name is the empty string. -/
theorem falsy_name_fallback_witness :
    (promptProject ⟨"1", some "", none,
        some [⟨some ⟨some "p1", some ""⟩, some ⟨none, some ""⟩⟩]⟩ = "No Project" ∧
      projectCell ⟨"1", some "", none,
        some [⟨some ⟨some "p1", some ""⟩, some ⟨none, some ""⟩⟩]⟩ = "") ∧
    (promptSection ⟨"1", some "", none,
        some [⟨some ⟨some "p1", some ""⟩, some ⟨none, some ""⟩⟩]⟩ = "No Section" ∧
      sectionCell ⟨"1", some "", none,
        some [⟨some ⟨some "p1", some ""⟩, some ⟨none, some ""⟩⟩]⟩ = "") ∧
    nameCell ⟨"1", some "", none,
        some [⟨some ⟨some "p1", some ""⟩, some ⟨none, some ""⟩⟩]⟩ = "" :=
  ⟨(falsy_name_fallback _).1 rfl, (falsy_name_fallback _).2.1 rfl,
    (falsy_name_fallback _).2.2 rfl⟩

/-- C4: the rendered URL follows the template
`https://app.asana.com/{workspace-or-zero}/{project-gid-or-zero}/{task-gid}`.
In the linear variant the workspace placeholder is the selected workspace
gid when the first membership has a (truthy) project gid and both
placeholders degrade to `0` otherwise; the Ink variant's `getTaskUrl` is
the same construction with workspace placeholder `0`. -/
theorem task_url_spec (workspace : String) (t : Task) :
    (∀ g, membershipProjectGid t = some g → g ≠ "" →
        taskUrlTs workspace t =
          "https://app.asana.com/" ++ workspace ++ "/" ++ g ++ "/" ++ t.gid) ∧
    (truthy (membershipProjectGid t) = false →
        taskUrlTs workspace t = "https://app.asana.com/0/0/" ++ t.gid) ∧
    getTaskUrl t = taskUrlTs "0" t := by
  refine ⟨fun g hg hne => ?_, fun hf => ?_, ?_⟩
  · simp [taskUrlTs, hg, truthy, optToStr, hne]
  · simp [taskUrlTs, hf]
  · unfold getTaskUrl taskUrlTs
    cases ht : truthy (membershipProjectGid t) with
    | false => simp [ht]
    | true =>
      simp only [ht, if_pos]
      rw [show ("https://app.asana.com/" ++ "0" ++ "/" : String) =
        "https://app.asana.com/0/" from rfl]

/-- Witness for C4 at a workspace gid and a task with a project gid, and at
a task with no memberships. -/
theorem task_url_spec_witness :
    taskUrlTs "7" ⟨"1", none, none, some [⟨some ⟨some "p1", some "Ops"⟩, none⟩]⟩ =
      "https://app.asana.com/" ++ "7" ++ "/" ++ "p1" ++ "/" ++ "1" :=
  (task_url_spec "7" _).1 "p1" rfl (by decide)

/-- Newline count distributes over string concatenation. -/
theorem countLines_append (s t : String) :
    countLines (s ++ t) = countLines s + countLines t := by
  simp [countLines, String.data_append, List.count_append]

/-- A decision whose six rendered cell values are newline-free. -/
def cellSafe (w : WorkedOnTask) : Prop :=
  countLines (projectCell w.task) = 0 ∧ countLines (sectionCell w.task) = 0 ∧
    countLines (nameCell w.task) = 0 ∧ countLines (getTaskUrl w.task) = 0 ∧
    countLines w.status = 0 ∧ countLines w.comment = 0

instance (w : WorkedOnTask) : Decidable (cellSafe w) := by
  unfold cellSafe
  infer_instance

/-- A data row with newline-free cells spans exactly one line. -/
theorem countLines_renderRow (w : WorkedOnTask) (h : cellSafe w) :
    countLines (renderRow w) = 1 := by
  obtain ⟨h1, h2, h3, h4, h5, h6⟩ := h
  simp [renderRow, countLines_append, h1, h2, h3, h4, h5, h6]
  decide

/-- Folding the row-appending loop adds one line per newline-free row. -/
theorem countLines_foldl (ws : List WorkedOnTask) (init : String)
    (h : ∀ w ∈ ws, cellSafe w) :
    countLines (ws.foldl (fun table w => table ++ renderRow w) init) =
      countLines init + ws.length := by
  induction ws generalizing init with
  | nil => simp
  | cons w rest ih =>
    simp only [List.foldl_cons, List.length_cons]
    rw [ih (init ++ renderRow w) fun x hx => h x (List.mem_cons_of_mem _ hx)]
    rw [countLines_append, countLines_renderRow w (h w (List.mem_cons_self _ _))]
    omega

/-- Counterexample to C2 as stated: a single decision whose comment contains
a newline renders as 4 lines, not `1 + 2`, because cell values are inserted
verbatim with no escaping. -/
theorem summary_table_newline_counterexample :
    countLines (generateSummaryTable
        [⟨⟨"1", some "T", none, none⟩, "done", "a\nb"⟩]) ≠
      ([⟨⟨"1", some "T", none, none⟩, "done", "a\nb"⟩] :
        List WorkedOnTask).length + 2 := by
  decide

/-- C2 (amended): for every decision sequence whose rendered cell values
are newline-free, the summary renderer produces exactly `len + 2` lines,
and the empty sequence yields exactly the 2-line table made of the fixed
six-column header row and the dash separator row. -/
theorem summary_table_line_count (D : List WorkedOnTask)
    (h : ∀ w ∈ D, cellSafe w) :
    countLines (generateSummaryTable D) = D.length + 2 ∧
      generateSummaryTable [] =
        "| Project | Section | Name | URL | Status | Comment |\n|---|---|---|---|---|---|\n" := by
  constructor
  · unfold generateSummaryTable
    rw [countLines_foldl D (headerRow ++ separatorRow) h]
    have hinit : countLines (headerRow ++ separatorRow) = 2 := by decide
    omega
  · rfl

/-- Witness for C2 (amended) at a one-decision sequence with newline-free
cells. -/
theorem summary_table_line_count_witness :
    countLines (generateSummaryTable
        [⟨⟨"1", some "Write report", some 0,
            some [⟨some ⟨some "p1", some "Ops"⟩, some ⟨none, some "Doing"⟩⟩]⟩,
          "done", "Shipped it"⟩]) =
      ([⟨⟨"1", some "Write report", some 0,
            some [⟨some ⟨some "p1", some "Ops"⟩, some ⟨none, some "Doing"⟩⟩]⟩,
          "done", "Shipped it"⟩] : List WorkedOnTask).length + 2 ∧
      generateSummaryTable [] =
        "| Project | Section | Name | URL | Status | Comment |\n|---|---|---|---|---|---|\n" :=
  summary_table_line_count _ (by decide)

/-- Counterexample to C3 as stated: in the linear variant the comment post
is awaited *before* the decision is pushed, so a failed confirmed post
throws to the top-level catch and the run aborts with no decision recorded
for the task (the claim requires a `ReviewDecision` regardless of failure). -/
theorem post_failure_drops_decision_counterexample :
    reviewLoopE (fun _ _ => PostOutcome.fail)
        [(⟨"1", some "T", some 0, none⟩, ⟨true, "done", "c", true⟩)] =
      Except.error () := rfl

/-- C3 (amended): in the state-machine variant, the post-confirmation step
appends a ReviewDecision with the task, entered status and entered comment
regardless of the answer (the post is not awaited, so its outcome cannot
affect the state), and issues a PostComment call exactly when the answer is
"yes"; in the linear variant the decision is appended when the post is
declined (comment retained, no call made) or when the confirmed post
succeeds (the call recorded), while a failed confirmed post aborts the run
before the decision is appended. -/
theorem decision_recording
    (ts : List Task) (ws : List WorkedOnTask) (i : Nat) (st cm v : String)
    (task : Task) (hti : ts[i]? = some task)
    (post : String → String → PostOutcome) (t : Task) (inp : TaskInput)
    (rest : List (Task × TaskInput)) (ds : List WorkedOnTask)
    (calls : List PostCall)
    (hrest : reviewLoopE post rest = .ok (ds, calls)) :
    (workedOf (handlePostComment v (.postComment ts ws i st cm)).1 =
        ws ++ [⟨task, st, cm⟩] ∧
      (handlePostComment v (.postComment ts ws i st cm)).2 =
        (if v = "yes" then [⟨task.gid, cm⟩] else [])) ∧
    (inp.included = true → inp.post = false →
        reviewLoopE post ((t, inp) :: rest) =
          .ok (⟨t, inp.status, inp.comment⟩ :: ds, calls)) ∧
    (inp.included = true → inp.post = true → post t.gid inp.comment = .ok →
        reviewLoopE post ((t, inp) :: rest) =
          .ok (⟨t, inp.status, inp.comment⟩ :: ds,
               ⟨t.gid, inp.comment⟩ :: calls)) := by
  refine ⟨⟨?_, ?_⟩, fun hinc hpost => ?_, fun hinc hpost hok => ?_⟩
  · simp only [handlePostComment, hti]
    by_cases hlast : i = ts.length - 1 <;> simp [hlast, workedOf]
  · simp only [handlePostComment, hti]
    by_cases hlast : i = ts.length - 1 <;> simp [hlast]
  · simp [reviewLoopE, hinc, hpost, hrest]
  · simp [reviewLoopE, hinc, hpost, hok, hrest]

/-- Witness for C3 (amended): a declined post at the post-confirmation step
still appends the decision with the comment retained and makes no call. -/
theorem decision_recording_witness :
    workedOf (handlePostComment "no"
        (AppState.postComment [⟨"1", some "T", none, none⟩] [] 0 "done" "c")).1 =
      [] ++ [⟨⟨"1", some "T", none, none⟩, "done", "c"⟩] ∧
    (handlePostComment "no"
        (AppState.postComment [⟨"1", some "T", none, none⟩] [] 0 "done" "c")).2 =
      (if "no" = "yes" then [⟨"1", "c"⟩] else []) :=
  (decision_recording [⟨"1", some "T", none, none⟩] [] 0 "done" "c" "no"
    ⟨"1", some "T", none, none⟩ rfl (fun _ _ => PostOutcome.ok)
    ⟨"1", some "T", none, none⟩ ⟨true, "done", "c", false⟩ [] [] [] rfl).1

/-- C5 evaluated at the failing input: in the Ink variant, submitting an
empty selection (the zero-filtered-tasks run) moves to the `status` state
with an empty task list and index 0 — not to `summary` — and, that state's
current task being absent, the post handler (the only producer of
decisions or of the `summary` state) leaves it unchanged; the renderer
itself does produce the 2-line header-only table for an empty decision
sequence. -/
theorem empty_selection_stuck :
    handleTasksSelect [] (AppState.selectTasks []) = .status [] [] 0 ∧
    (∀ ws2, AppState.status [] [] 0 ≠ .summary ws2) ∧
    (∀ v st cm,
        handlePostComment v (AppState.postComment [] [] 0 st cm) =
          (.postComment [] [] 0 st cm, [])) ∧
    countLines (generateSummaryTable []) = 2 := by
  refine ⟨rfl, fun ws2 h => AppState.noConfusion h, fun v st cm => rfl, ?_⟩
  decide

/-- C8: a run that declines or does not select every candidate task ends
with an empty decision sequence and never invokes PostComment.  Linear
variant: if every per-task answer declines inclusion, the loop returns no
decisions and an empty call list (the only POST site is guarded by the
include confirmation).  Ink variant: if no candidate gid is selected, the
multi-select submit yields the review entry state with an empty selected
list and an empty accumulator, from which the post handler never fires
(see `empty_selection_stuck` reasoning); only `handlePostComment` issues
calls. -/
theorem decline_all_no_decisions
    (post : String → String → PostOutcome) (pairs : List (Task × TaskInput))
    (hdecl : ∀ p ∈ pairs, p.2.included = false)
    (tasks : List Task) (values : List String)
    (hnone : ∀ t ∈ tasks, values.contains t.gid = false) :
    reviewLoopE post pairs = .ok ([], []) ∧
      handleTasksSelect values (.selectTasks tasks) = .status [] [] 0 := by
  constructor
  · induction pairs with
    | nil => rfl
    | cons p rest ih =>
      have h := hdecl p (List.mem_cons_self _ _)
      obtain ⟨t, inp⟩ := p
      simp only at h
      simp only [reviewLoopE, h, Bool.false_eq_true, if_false]
      exact ih fun q hq => hdecl q (List.mem_cons_of_mem _ hq)
  · simp only [handleTasksSelect, AppState.status.injEq, and_true]
    rw [List.filter_eq_nil_iff]
    intro t ht
    simpa using hnone t ht

/-- Witness for C8: one candidate task, declined / not selected. -/
theorem decline_all_no_decisions_witness :
    reviewLoopE (fun _ _ => PostOutcome.ok)
        [(⟨"1", some "T", some 0, none⟩, ⟨false, "s", "c", true⟩)] =
      .ok ([], []) ∧
      handleTasksSelect [] (.selectTasks [⟨"1", some "T", some 0, none⟩]) =
        .status [] [] 0 :=
  decline_all_no_decisions (fun _ _ => PostOutcome.ok)
    [(⟨"1", some "T", some 0, none⟩, ⟨false, "s", "c", true⟩)] (by decide)
    [⟨"1", some "T", some 0, none⟩] [] (by decide)

/-- C9: in the Ink variant, every reachable `status`, `comment` or
`postComment` state has accumulated exactly one decision per task already
processed (`workedOnTasks.length = currentTaskIndex`), and whenever the
post handler moves a reachable `postComment` state to `summary`, the final
accumulator has one decision per selected task
(`workedOnTasks.length = selectedTasks.length`). -/
theorem cursor_invariant :
    (∀ s, Reachable s → cursorInv s) ∧
    (∀ ts ws i st cm v ws2,
        Reachable (.postComment ts ws i st cm) →
        (handlePostComment v (.postComment ts ws i st cm)).1 = .summary ws2 →
        ws2.length = ts.length) := by
  have main : ∀ s, Reachable s → cursorInv s := by
    intro s hs
    induction hs with
    | init tasks values => simp [handleTasksSelect, cursorInv]
    | statusStep v s hs ih => cases s <;> simpa [handleStatusSubmit, cursorInv] using ih
    | commentStep v s hs ih => cases s <;> simpa [handleCommentSubmit, cursorInv] using ih
    | postStep v s hs ih =>
      cases s with
      | postComment ts ws i st cm =>
        simp only [handlePostComment]
        cases hti : ts[i]? with
        | none => simpa [cursorInv] using ih
        | some task =>
          simp only [cursorInv] at ih
          by_cases hlast : i = ts.length - 1 <;>
            simp [hlast, cursorInv, ih]
      | selectTasks tasks => simpa [handlePostComment, cursorInv] using ih
      | status ts ws i => simpa [handlePostComment, cursorInv] using ih
      | comment ts ws i st => simpa [handlePostComment, cursorInv] using ih
      | summary ws => simpa [handlePostComment, cursorInv] using ih
  refine ⟨main, fun ts ws i st cm v ws2 hreach heq => ?_⟩
  have hinv : ws.length = i := main _ hreach
  simp only [handlePostComment] at heq
  cases hti : ts[i]? with
  | none => simp [hti] at heq
  | some task =>
    have hilt : i < ts.length := (List.getElem?_eq_some.mp hti).1
    rw [hti] at heq
    by_cases hlast : i = ts.length - 1
    · simp [hlast] at heq
      have hlen := congrArg List.length heq
      simp [hinv] at hlen
      omega
    · simp [hlast] at heq

/-- Witness for C9: the state reached by submitting an empty selection
satisfies the cursor invariant. -/
theorem cursor_invariant_witness :
    cursorInv (handleTasksSelect [] (AppState.selectTasks [])) :=
  cursor_invariant.1 _ (Reachable.init [] [])

end AsanaSummarizer
